import Mathlib

/-!
Formal model of the PM-system workflow core (`src/app.py`).

The program is a role-gated workflow over spreadsheet tables.  Every mutation
reads all records of one table, recomputes the full list of rows in memory and
rewrites the table wholesale.  The definitions below embed, straight from the
source, the row serializers and the in-memory computations of each submit
handler; the theorems settle the specification's claims about them.

Python values are mapped as follows: `int` becomes `Int`, `str` becomes
`String`, `float` (only the estimated-hours field) becomes `ℚ`, a spreadsheet
cell becomes the sum type `Cell`, and a written row becomes `List Cell`.
-/

namespace PMSystem

/-- A spreadsheet cell value as the code writes it: a Python `int`, a `str`,
or a `float` (modelled exactly as a rational, since no claim depends on
floating-point rounding). -/
inductive Cell where
  | i (n : Int)
  | s (v : String)
  | q (v : ℚ)
deriving DecidableEq, Repr

/-- One row written by `rewrite_sheet`. -/
abbrev Row := List Cell

/-- A record of the `meetings` table (headers `MEETINGS_HEADERS`). -/
structure Meeting where
  id : Int
  date : String
  title : String
  raw_requirement : String
deriving DecidableEq, Repr

/-- A record of the `srs_index` table (headers `SRS_INDEX_HEADERS`). -/
structure Srs where
  id : Int
  meeting_id : Int
  title : String
  desc : String
  problem : String
  goal : String
  ui_location : String
  ui_image_name : String
  version : String
  change_note : String
  created_at : String
  status : String
  review_comment : String
deriving DecidableEq, Repr

/-- A record of a per-spec `SRS_TASKS_{id}` table (headers `TASK_HEADERS`). -/
structure Task where
  id : Int
  name : String
  description : String
  engineer : String
  estimated_hours : ℚ
  start_date : String
  end_date : String
  engineer_understand_status : String
  done_status : String
  client_status : String
  result_url : String
deriving DecidableEq, Repr

/-- Id allocation as inlined at `app.py:212`, `282` and `501`:
`new_id = (max([int(r["id"]) for r in existing]) + 1) if existing else 1`.
Python's `max` of a nonempty list is the left fold of binary `max` over the
first element. -/
def allocate_id : List Int → Int
  | [] => 1
  | x :: xs => xs.foldl max x + 1

/-- Every member of `x :: xs` is bounded by the fold of `max` that Python's
`max` computes. -/
theorem le_foldl_max (xs : List Int) : ∀ (x i : Int), i ∈ x :: xs → i ≤ xs.foldl max x := by
  induction xs with
  | nil =>
    intro x i h
    simp only [List.mem_singleton] at h
    simp [h]
  | cons y ys ih =>
    intro x i h
    simp only [List.foldl_cons]
    rcases List.mem_cons.mp h with rfl | h'
    · exact le_trans (le_max_left i y) (ih (max i y) (max i y) (List.mem_cons_self _ _))
    · rcases List.mem_cons.mp h' with rfl | h''
      · exact le_trans (le_max_right x i) (ih (max x i) (max x i) (List.mem_cons_self _ _))
      · exact ih (max x y) i (List.mem_cons_of_mem _ h'')

/-- The fold of `max` is itself one of the candidates, hence equals the true
maximum. -/
theorem foldl_max_mem (xs : List Int) : ∀ x : Int, xs.foldl max x ∈ x :: xs := by
  induction xs with
  | nil => intro x; simp
  | cons y ys ih =>
    intro x
    simp only [List.foldl_cons]
    rcases List.mem_cons.mp (ih (max x y)) with hm | hm
    · rcases max_choice x y with hc | hc
      · rw [hm, hc]; exact List.mem_cons_self _ _
      · rw [hm, hc]; exact List.mem_cons_of_mem _ (List.mem_cons_self _ _)
    · exact List.mem_cons_of_mem _ (List.mem_cons_of_mem _ hm)

/-- C1: id allocation returns 1 on an empty record set and `max(ids) + 1`
otherwise (stated against the order-theoretic maximum: any member that bounds
all members), and the allocated id never equals any existing id.  Stability is
immediate because `allocate_id` is a function of its input. -/
theorem allocate_id_c1 (ids : List Int) :
    (ids = [] → allocate_id ids = 1) ∧
    (∀ m, m ∈ ids → (∀ b ∈ ids, b ≤ m) → allocate_id ids = m + 1) ∧
    (∀ i ∈ ids, allocate_id ids ≠ i) := by
  refine ⟨fun h => by rw [h]; rfl, ?_, ?_⟩
  · intro m hm hub
    cases ids with
    | nil => simp at hm
    | cons x xs =>
      have h1 : m ≤ xs.foldl max x := le_foldl_max xs x m hm
      have h2 : xs.foldl max x ≤ m := hub _ (foldl_max_mem xs x)
      have : xs.foldl max x = m := le_antisymm h2 h1
      simp [allocate_id, this]
  · intro i hi
    cases ids with
    | nil => simp at hi
    | cons x xs =>
      have h1 : i ≤ xs.foldl max x := le_foldl_max xs x i hi
      simp only [allocate_id]
      omega

/-- Witness for C1 at the spec's own example `{3, 7, 2}`: the allocated id is
8 and differs from the existing id 7. -/
theorem allocate_id_c1_w :
    allocate_id [(3 : Int), 7, 2] = 8 ∧ allocate_id [(3 : Int), 7, 2] ≠ 7 := by
  have h := allocate_id_c1 [(3 : Int), 7, 2]
  refine ⟨?_, h.2.2 7 (by decide)⟩
  have h8 := h.2.1 7 (by decide) (by decide)
  omega

/-- Serialization of one existing `srs_index` record, exactly the field list
rebuilt at `app.py:307-312` (and `649-655`). -/
def srsRow (x : Srs) : Row :=
  [.i x.id, .i x.meeting_id, .s x.title, .s x.desc, .s x.problem, .s x.goal,
   .s x.ui_location, .s x.ui_image_name, .s x.version, .s x.change_note,
   .s x.created_at, .s x.status, .s x.review_comment]

/-- The freshly appended `srs_index` row of `app.py:288-302`: `problem` is the
selected Meeting's `raw_requirement`, `status` is the literal `"待確認"`
(pending) and `review_comment` is empty. -/
def srsNewRow (new_id : Int) (sel_meeting : Meeting)
    (title desc goal ui_loc ui_img_url version change_note created : String) : Row :=
  [.i new_id, .i sel_meeting.id, .s title, .s desc, .s sel_meeting.raw_requirement,
   .s goal, .s ui_loc, .s ui_img_url, .s version, .s change_note, .s created,
   .s "待確認", .s ""]

/-- Python's `not title.strip()` test: true exactly when the string contains
nothing but whitespace (stripping both ends leaves it empty). -/
def isBlank (str : String) : Bool :=
  str.toList.all Char.isWhitespace

/-- The SRS-creation submit handler of `app.py:277-315` restricted to what it
writes into `srs_index`: `none` models the blocked branch (blank title shows a
validation error; nothing is written), otherwise the rewrite is the old rows
re-serialized followed by the new row. -/
def srsSubmit (exist : List Srs) (sel_meeting : Meeting)
    (title desc goal ui_loc ui_img_url version change_note created : String) :
    Option (List Row) :=
  if isBlank title then none
  else
    some (exist.map srsRow ++
      [srsNewRow (allocate_id (exist.map Srs.id)) sel_meeting title desc goal ui_loc
        ui_img_url version change_note created])

/-- `"進行中" if understand_status == "已理解" else "等待資料"` (`app.py:532`). -/
def done_status_of (understand_status : String) : String :=
  if understand_status = "已理解" then "進行中" else "等待資料"

/-- `"\n".join(upload_urls) if upload_urls else ""` (`app.py:518`). -/
def joinResultUrls (upload_urls : List String) : String :=
  if upload_urls.isEmpty then "" else String.intercalate "\n" upload_urls

/-- Serialization of one existing task record, exactly the field list rebuilt
at `app.py:537-544`. -/
def taskRow (t : Task) : Row :=
  [.i t.id, .s t.name, .s t.description, .s t.engineer, .q t.estimated_hours,
   .s t.start_date, .s t.end_date, .s t.engineer_understand_status,
   .s t.done_status, .s t.client_status, .s t.result_url]

/-- The freshly appended task row of `app.py:523-535`: description is always
empty, engineer is the constant literal `"Engineer"`, `done_status` is derived
from the understanding status, `client_status` starts as `"待確認"`. -/
def engineerNewRow (new_id : Int) (subtask_name : String) (est_hours : ℚ)
    (start_date end_date understand_status : String) (upload_urls : List String) : Row :=
  [.i new_id, .s subtask_name, .s "", .s "Engineer", .q est_hours,
   .s start_date, .s end_date, .s understand_status,
   .s (done_status_of understand_status), .s "待確認", .s (joinResultUrls upload_urls)]

/-- The option list shown by the engineer's subtask selectbox (`app.py:472-475`):
the PM-subtask names when any exist, otherwise a single placeholder guidance
string — submission is not disabled in either case. -/
def pmSubtaskOptions (pm_subtasks : List String) : List String :=
  if pm_subtasks.isEmpty then ["（尚無子任務，請 PM 建立）"] else pm_subtasks

/-- The engineer-report submit handler of `app.py:500-547` restricted to what
it writes into `SRS_TASKS_{srs_id}`: it unconditionally rewrites the table as
the old rows re-serialized followed by the new row. -/
def engineerSubmit (existing_tasks : List Task) (subtask_name : String) (est_hours : ℚ)
    (start_date end_date understand_status : String) (upload_urls : List String) : List Row :=
  existing_tasks.map taskRow ++
    [engineerNewRow (allocate_id (existing_tasks.map Task.id)) subtask_name est_hours
      start_date end_date understand_status upload_urls]

/-- Serialization of one `srs_index` record during review-save
(`app.py:645-655`): the matched row is re-serialized with the new status and
comment at the last two positions, any other row is re-serialized from its own
fields. -/
def srsReviewApply (srs_id : Int) (new_status new_comment : String) (x : Srs) : Row :=
  if x.id = srs_id then
    [.i x.id, .i x.meeting_id, .s x.title, .s x.desc, .s x.problem, .s x.goal,
     .s x.ui_location, .s x.ui_image_name, .s x.version, .s x.change_note,
     .s x.created_at, .s new_status, .s new_comment]
  else srsRow x

/-- The full `srs_index` rewrite of the review-save (`app.py:644-656`). -/
def srsReviewRows (srs_list : List Srs) (srs_id : Int) (new_status new_comment : String) :
    List Row :=
  srs_list.map (srsReviewApply srs_id new_status new_comment)

/-- One overview row under review-save (`app.py:663-671`): the `審核狀態` row
gets the new status, the `審核意見（業主）` row gets the new comment, any
other row passes through with its key and value. -/
def overviewReviewRow (new_status new_comment : String) (r : String × Cell) : String × Cell :=
  if r.1 = "審核狀態" then (r.1, .s new_status)
  else if r.1 = "審核意見（業主）" then (r.1, .s new_comment)
  else r

/-- The overview rewrite of the review-save (`app.py:659-673`). -/
def overviewReviewRows (ov : List (String × Cell)) (new_status new_comment : String) :
    List (String × Cell) :=
  ov.map (overviewReviewRow new_status new_comment)

/-- The review-save handler of `app.py:641-677`.  The overview argument is
`none` when `sh.worksheet(f"SRS_OVERVIEW_{srs_id}")` (or its read/rewrite)
fails: that whole block sits in `try/except: pass`, so the failure is
swallowed and the `srs_index` rewrite still stands. -/
def reviewSave (srs_list : List Srs) (overview : Option (List (String × Cell)))
    (srs_id : Int) (new_status new_comment : String) :
    List Row × Option (List (String × Cell)) :=
  (srsReviewRows srs_list srs_id new_status new_comment,
   overview.map (fun ov => overviewReviewRows ov new_status new_comment))

/-- The selectbox options of the client task review (`app.py:749-754`). -/
def clientStatusOptions : List String := ["待確認", "已通過"]

/-- The value the client's per-task selectbox yields: one of the two options. -/
def clientChoice (k : Fin 2) : String :=
  clientStatusOptions.getD k.val "待確認"

/-- Serialization of one task record during client task review
(`app.py:756-768`): every field passes through except `client_status`, which
becomes the chosen option. -/
def clientReviewRow (t : Task) (choice : String) : Row :=
  [.i t.id, .s t.name, .s t.description, .s t.engineer, .q t.estimated_hours,
   .s t.start_date, .s t.end_date, .s t.engineer_understand_status,
   .s t.done_status, .s choice, .s t.result_url]

/-- The full rewrite of the client task review (`app.py:723-771`), with `sel`
the per-task-id selection (keyed `client_status_{tid}_{srs_id}` in the UI). -/
def clientTaskReviewRows (tasks : List Task) (sel : Int → Fin 2) : List Row :=
  tasks.map (fun t => clientReviewRow t (clientChoice (sel t.id)))

/-- A Python `datetime.date` value. -/
structure PDate where
  year : ℕ
  month : ℕ
  day : ℕ
deriving DecidableEq, Repr

/-- Python date comparison: lexicographic on (year, month, day). -/
def PDate.ltb (a b : PDate) : Bool :=
  Nat.blt a.year b.year ||
    (a.year == b.year && (Nat.blt a.month b.month ||
      (a.month == b.month && Nat.blt a.day b.day)))

/-- Gregorian leap-year rule, as `datetime` uses. -/
def isLeap (y : ℕ) : Bool :=
  (y % 4 == 0 && y % 100 != 0) || y % 400 == 0

def daysInMonth (y m : ℕ) : ℕ :=
  if m = 2 then (if isLeap y then 29 else 28)
  else if m = 4 ∨ m = 6 ∨ m = 9 ∨ m = 11 then 30
  else 31

def digitVal (c : Char) : ℕ := c.toNat - 48

/-- `datetime.date.fromisoformat` on the canonical `YYYY-MM-DD` layout (the
only layout this program ever stores, via `date.isoformat()`): ten characters,
dashes at positions 4 and 7, digits elsewhere, and a calendar-valid
year/month/day; anything else raises, i.e. returns `none` here. -/
def parseISODate (str : String) : Option PDate :=
  match str.toList with
  | [y1, y2, y3, y4, '-', m1, m2, '-', d1, d2] =>
    if y1.isDigit && y2.isDigit && y3.isDigit && y4.isDigit &&
        m1.isDigit && m2.isDigit && d1.isDigit && d2.isDigit then
      let y := 1000 * digitVal y1 + 100 * digitVal y2 + 10 * digitVal y3 + digitVal y4
      let m := 10 * digitVal m1 + digitVal m2
      let d := 10 * digitVal d1 + digitVal d2
      if 1 ≤ y && 1 ≤ m && m ≤ 12 && 1 ≤ d && d ≤ daysInMonth y m then
        some ⟨y, m, d⟩
      else none
    else none
  | _ => none

/-- The string placed in the dashboard's `逾期` column when a task is overdue. -/
def OVERDUE_MARK : String := "⚠ 逾期"

/-- The guarded body of the overdue computation: parse the end date and
compare it strictly against today; a parse failure is swallowed by the
enclosing `try/except: pass`, leaving the flag empty. -/
def overdueInner (e : String) (today : PDate) : String :=
  match parseISODate e with
  | some d => if PDate.ltb d today then OVERDUE_MARK else ""
  | none => ""

/-- The overdue computation of `app.py:879-889`: the flag starts empty; when
the end date is present and nonempty and the task is not `已完成`, the date is
parsed and compared strictly against today. -/
def overdueFlag (end_date : Option String) (done_status : String) (today : PDate) : String :=
  match end_date with
  | none => ""
  | some e =>
    if e ≠ "" ∧ done_status ≠ "已完成" then overdueInner e today else ""

/-- A concrete `srs_index` record, used by witnesses. -/
def sampleSrs : Srs :=
  ⟨1, 1, "Export CSV", "", "Need a report export feature", "", "", "", "v0.1", "",
   "2024-01-01 00:00:00", "待確認", ""⟩

/-- A concrete task record, used by witnesses. -/
def sampleTask : Task :=
  ⟨1, "A", "", "Engineer", 2, "2024-01-01", "2024-01-02", "已理解", "進行中",
   "已通過", "http://x"⟩

/-- A concrete meeting record, used by witnesses. -/
def sampleMeeting : Meeting :=
  ⟨1, "2024-01-01", "Kickoff", "Need a report export feature"⟩

/-- C4: with a selected Meeting and a non-blank title, the SRS-creation submit
writes exactly the old rows re-serialized plus one appended row whose
`problem` (position 4) is the Meeting's `raw_requirement` verbatim, whose
`status` (position 11) is the pending literal and whose `review_comment`
(position 12) is empty. -/
theorem srs_create_c4 (exist : List Srs) (m : Meeting)
    (title desc goal ui_loc ui_img version note created : String)
    (h : isBlank title = false) :
    srsSubmit exist m title desc goal ui_loc ui_img version note created =
      some (exist.map srsRow ++
        [srsNewRow (allocate_id (exist.map Srs.id)) m title desc goal ui_loc ui_img
          version note created]) ∧
    (srsNewRow (allocate_id (exist.map Srs.id)) m title desc goal ui_loc ui_img
        version note created).get? 4 = some (.s m.raw_requirement) ∧
    (srsNewRow (allocate_id (exist.map Srs.id)) m title desc goal ui_loc ui_img
        version note created).get? 11 = some (.s "待確認") ∧
    (srsNewRow (allocate_id (exist.map Srs.id)) m title desc goal ui_loc ui_img
        version note created).get? 12 = some (.s "") := by
  refine ⟨?_, rfl, rfl, rfl⟩
  simp [srsSubmit, h]

/-- Witness for C4: the spec's scenario input (meeting id 1, title
"Export CSV") is accepted and produces a one-row table. -/
theorem srs_create_c4_w :
    srsSubmit [] sampleMeeting "Export CSV" "" "" "" "" "v0.1" "" "2024-01-01 00:00:00" =
      some [srsNewRow 1 sampleMeeting "Export CSV" "" "" "" "" "v0.1" "" "2024-01-01 00:00:00"] ∧
    (srsNewRow 1 sampleMeeting "Export CSV" "" "" "" "" "v0.1" "" "2024-01-01 00:00:00").get? 4 =
      some (.s "Need a report export feature") := by
  have h := srs_create_c4 [] sampleMeeting "Export CSV" "" "" "" "" "v0.1" ""
    "2024-01-01 00:00:00" (by decide)
  exact ⟨h.1, h.2.1⟩

/-- C5: a created task's `done_status` (position 8) is exactly
`done_status_of` of the understanding status — the in-progress literal when
understood, the waiting literal otherwise — and both downstream table
rewrites (carrying prior rows through an engineer report, and the client task
review) pass every row's stored `done_status` through unchanged; no path
recomputes it. -/
theorem done_status_c5 (existing : List Task) (sel : Int → Fin 2) (nid : Int)
    (name : String) (est : ℚ) (sd ed us : String) (urls : List String) :
    (engineerNewRow nid name est sd ed us urls).get? 8 = some (.s (done_status_of us)) ∧
    (us = "已理解" → done_status_of us = "進行中") ∧
    (us ≠ "已理解" → done_status_of us = "等待資料") ∧
    (∀ t ∈ existing, (taskRow t).get? 8 = some (.s t.done_status)) ∧
    (∀ t ∈ existing,
      (clientReviewRow t (clientChoice (sel t.id))).get? 8 = some (.s t.done_status)) := by
  refine ⟨rfl, ?_, ?_, fun t _ => rfl, fun t _ => rfl⟩
  · intro h; simp [done_status_of, h]
  · intro h; simp [done_status_of, h]

/-- Witness for C5 at concrete inputs: understood maps to in-progress, not
understood maps to waiting, and the sample task's stored `done_status`
survives both rewrites. -/
theorem done_status_c5_w :
    done_status_of "已理解" = "進行中" ∧
    done_status_of "需要更多資料" = "等待資料" ∧
    (taskRow sampleTask).get? 8 = some (.s "進行中") := by
  have h := done_status_c5 [sampleTask] (fun _ => 0) 2 "B" 1 "2024-01-01" "2024-01-02"
    "已理解" []
  have h2 := done_status_c5 [sampleTask] (fun _ => 0) 2 "B" 1 "2024-01-01" "2024-01-02"
    "需要更多資料" []
  exact ⟨h.2.1 rfl, h2.2.2.1 (by decide), h.2.2.2.1 sampleTask (by simp)⟩

/-- C6 (frame): an engineer report rewrites the task table to exactly one more
row than before; every prior row is, position for position, the serialization
of its record's current fields — in particular `client_status` (position 9)
and `result_url` (position 10) are carried through — and the suffix beyond the
prior rows is exactly the single new row. -/
theorem task_frame_c6 (existing : List Task) (name : String) (est : ℚ)
    (sd ed us : String) (urls : List String) :
    (engineerSubmit existing name est sd ed us urls).length = existing.length + 1 ∧
    (∀ i (h : i < existing.length),
      (engineerSubmit existing name est sd ed us urls).get? i =
        some (taskRow (existing.get ⟨i, h⟩))) ∧
    (∀ t ∈ existing,
      (taskRow t).get? 9 = some (.s t.client_status) ∧
      (taskRow t).get? 10 = some (.s t.result_url)) ∧
    (engineerSubmit existing name est sd ed us urls).drop existing.length =
      [engineerNewRow (allocate_id (existing.map Task.id)) name est sd ed us urls] := by
  refine ⟨by simp [engineerSubmit], ?_, fun t _ => ⟨rfl, rfl⟩, ?_⟩
  · intro i h
    have hm : i < (existing.map taskRow).length := by simpa using h
    rw [engineerSubmit, List.get?_append hm, List.get?_map, List.get?_eq_get h]
    rfl
  · have : existing.length = (existing.map taskRow).length := by simp
    rw [engineerSubmit, this, List.drop_left]

/-- Witness for C6: reporting over a table holding the sample task leaves its
serialized row — reviewed `client_status` and `result_url` included — at
position 0 unchanged. -/
theorem task_frame_c6_w :
    (engineerSubmit [sampleTask] "B" 1 "2024-02-01" "2024-02-02" "已理解" []).get? 0 =
      some (taskRow sampleTask) ∧
    (taskRow sampleTask).get? 9 = some (.s "已通過") := by
  have h := task_frame_c6 [sampleTask] "B" 1 "2024-02-01" "2024-02-02" "已理解" []
  exact ⟨h.2.1 0 (by simp), (h.2.2.1 sampleTask (by simp)).1⟩

/-- C9: every task row the engineer-report path writes has the empty string at
the description position (2) and the constant literal `"Engineer"` at the
engineer position (3), whatever the inputs; no input of the operation carries
the reporting engineer's identity. -/
theorem engineer_row_c9 (nid : Int) (name : String) (est : ℚ) (sd ed us : String)
    (urls : List String) :
    (engineerNewRow nid name est sd ed us urls).get? 2 = some (.s "") ∧
    (engineerNewRow nid name est sd ed us urls).get? 3 = some (.s "Engineer") :=
  ⟨rfl, rfl⟩

/-- C2 counterexample: with an empty PM-subtask list the engineer form is not
blocked — the selectbox offers only the placeholder guidance string, and
submitting writes one task row whose name is that placeholder, which is not
among the (empty) list of subtask names. -/
theorem engineer_gate_c2_cex :
    pmSubtaskOptions [] = ["（尚無子任務，請 PM 建立）"] ∧
    engineerSubmit [] "（尚無子任務，請 PM 建立）" 1 "2024-01-01" "2024-01-02" "已理解" [] =
      [[.i 1, .s "（尚無子任務，請 PM 建立）", .s "", .s "Engineer", .q 1,
        .s "2024-01-01", .s "2024-01-02", .s "已理解", .s "進行中", .s "待確認", .s ""]] ∧
    "（尚無子任務，請 PM 建立）" ∉ ([] : List String) := by
  refine ⟨rfl, ?_, by simp⟩
  rfl

/-- C2 as amended: the chosen subtask name always comes from the selectbox
options; when subtasks exist those options are exactly the listed names, so
the created row's name (position 1) is one of them; when none exist the only
option is the placeholder guidance string and submission still appends one
row, named with the placeholder. -/
theorem engineer_gate_c2 (pm_subtasks : List String) (chosen : String)
    (existing : List Task) (est : ℚ) (sd ed us : String) (urls : List String)
    (hc : chosen ∈ pmSubtaskOptions pm_subtasks) :
    (pm_subtasks ≠ [] → chosen ∈ pm_subtasks) ∧
    (pm_subtasks = [] → chosen = "（尚無子任務，請 PM 建立）") ∧
    (engineerSubmit existing chosen est sd ed us urls).length = existing.length + 1 ∧
    (engineerSubmit existing chosen est sd ed us urls).drop existing.length =
      [engineerNewRow (allocate_id (existing.map Task.id)) chosen est sd ed us urls] ∧
    (engineerNewRow (allocate_id (existing.map Task.id)) chosen est sd ed us urls).get? 1 =
      some (.s chosen) := by
  refine ⟨?_, ?_, by simp [engineerSubmit], ?_, rfl⟩
  · intro hne
    rwa [pmSubtaskOptions, if_neg (by simpa [List.isEmpty_iff] using hne)] at hc
  · intro he
    rw [pmSubtaskOptions, if_pos (by simp [he])] at hc
    simpa using hc
  · have hlen : existing.length = (existing.map taskRow).length := by simp
    rw [engineerSubmit, hlen, List.drop_left]

/-- Witness for C2 (amended) with one listed subtask: the chosen name "A" is a
listed name and the rewrite appends exactly one row named "A". -/
theorem engineer_gate_c2_w :
    "A" ∈ pmSubtaskOptions ["A"] ∧
    (engineerSubmit [] "A" 1 "2024-01-01" "2024-01-02" "已理解" []).length = 1 ∧
    (engineerNewRow 1 "A" 1 "2024-01-01" "2024-01-02" "已理解" []).get? 1 =
      some (.s "A") := by
  have hmem : "A" ∈ pmSubtaskOptions ["A"] := by simp [pmSubtaskOptions]
  have h := engineer_gate_c2 ["A"] "A" [] 1 "2024-01-01" "2024-01-02" "已理解" [] hmem
  exact ⟨hmem, h.2.2.1, h.2.2.2.2⟩

/-- C3: a review-save rewrites `srs_index` so that a row whose id matches
keeps its first eleven cells and gets the new status and comment in the last
two, while a row whose id differs is re-serialized exactly as it was; when the
overview table is reachable its `審核狀態` and `審核意見（業主）` rows get the
same new values (so they equal the spec's new status/comment) and every other
overview row passes through; when reaching the overview fails the failure is
swallowed — the `srs_index` rewrite stands and no error is produced. -/
theorem review_save_c3 (srs_list : List Srs) (overview : Option (List (String × Cell)))
    (srs_id : Int) (ns nc : String) :
    (∀ i (h : i < srs_list.length),
      ((srs_list.get ⟨i, h⟩).id = srs_id →
        (reviewSave srs_list overview srs_id ns nc).1.get? i =
          some ((srsRow (srs_list.get ⟨i, h⟩)).take 11 ++ [.s ns, .s nc])) ∧
      ((srs_list.get ⟨i, h⟩).id ≠ srs_id →
        (reviewSave srs_list overview srs_id ns nc).1.get? i =
          some (srsRow (srs_list.get ⟨i, h⟩)))) ∧
    (∀ ovl, overview = some ovl →
      (reviewSave srs_list overview srs_id ns nc).2 =
        some (overviewReviewRows ovl ns nc) ∧
      ∀ r ∈ ovl,
        (r.1 = "審核狀態" → overviewReviewRow ns nc r = (r.1, .s ns)) ∧
        (r.1 = "審核意見（業主）" → overviewReviewRow ns nc r = (r.1, .s nc)) ∧
        (r.1 ≠ "審核狀態" → r.1 ≠ "審核意見（業主）" →
          overviewReviewRow ns nc r = r)) ∧
    (overview = none →
      reviewSave srs_list overview srs_id ns nc =
        (srsReviewRows srs_list srs_id ns nc, none)) := by
  refine ⟨?_, ?_, ?_⟩
  · intro i h
    have hget : (reviewSave srs_list overview srs_id ns nc).1.get? i =
        some (srsReviewApply srs_id ns nc (srs_list.get ⟨i, h⟩)) := by
      show (srs_list.map (srsReviewApply srs_id ns nc)).get? i = _
      rw [List.get?_map, List.get?_eq_get h]
      rfl
    constructor
    · intro hid
      rw [hget, srsReviewApply, if_pos hid]
      rfl
    · intro hid
      rw [hget, srsReviewApply, if_neg hid]
  · intro ovl hov
    refine ⟨by simp [reviewSave, hov], ?_⟩
    intro r _
    refine ⟨?_, ?_, ?_⟩
    · intro h1
      rw [overviewReviewRow, if_pos h1]
    · intro h2
      rw [overviewReviewRow, if_neg (by rw [h2]; decide), if_pos h2]
    · intro h1 h2
      rw [overviewReviewRow, if_neg h1, if_neg h2]
  · intro hov
    simp [reviewSave, hov]

/-- Witness for C3 at the spec's scenario (spec id 1 approved with comment
"looks good"): the matched `srs_index` row carries the new values and the
overview mirror holds them too. -/
theorem review_save_c3_w :
    (reviewSave [sampleSrs]
        (some [("審核狀態", Cell.s "待確認"), ("審核意見（業主）", Cell.s ""),
          ("Problem", Cell.s "p")]) 1 "已通過" "looks good").1.get? 0 =
      some ((srsRow sampleSrs).take 11 ++ [.s "已通過", .s "looks good"]) ∧
    (reviewSave [sampleSrs]
        (some [("審核狀態", Cell.s "待確認"), ("審核意見（業主）", Cell.s ""),
          ("Problem", Cell.s "p")]) 1 "已通過" "looks good").2 =
      some [("審核狀態", Cell.s "已通過"), ("審核意見（業主）", Cell.s "looks good"),
        ("Problem", Cell.s "p")] := by
  have h := review_save_c3 [sampleSrs]
    (some [("審核狀態", Cell.s "待確認"), ("審核意見（業主）", Cell.s ""),
      ("Problem", Cell.s "p")]) 1 "已通過" "looks good"
  refine ⟨(h.1 0 (by simp)).1 rfl, ?_⟩
  rw [(h.2.1 _ rfl).1]
  rfl

/-- C10: a freshly created task row's `client_status` cell (position 9) is the
pending literal `"待確認"`, and the client batch review only ever writes a
`client_status` drawn from the two-element option list
`["待確認", "已通過"]`, passing every other field through — so these two
values are the only ones either writer produces. -/
theorem client_status_c10 (nid : Int) (name : String) (est : ℚ) (sd ed us : String)
    (urls : List String) (tasks : List Task) (sel : Int → Fin 2) :
    (engineerNewRow nid name est sd ed us urls).get? 9 = some (.s "待確認") ∧
    clientStatusOptions = ["待確認", "已通過"] ∧
    (∀ k : Fin 2, clientChoice k ∈ clientStatusOptions) ∧
    (∀ r ∈ clientTaskReviewRows tasks sel, ∃ t ∈ tasks,
      r = clientReviewRow t (clientChoice (sel t.id)) ∧
      r.get? 9 = some (.s (clientChoice (sel t.id))) ∧
      clientChoice (sel t.id) ∈ clientStatusOptions) := by
  refine ⟨rfl, rfl, ?_, ?_⟩
  · intro k
    match k with
    | ⟨0, _⟩ => exact List.mem_cons_self _ _
    | ⟨1, _⟩ => exact List.mem_cons_of_mem _ (List.mem_cons_self _ _)
  · intro r hr
    obtain ⟨t, ht, rfl⟩ := List.mem_map.mp hr
    refine ⟨t, ht, rfl, rfl, ?_⟩
    match sel t.id with
    | ⟨0, _⟩ => exact List.mem_cons_self _ _
    | ⟨1, _⟩ => exact List.mem_cons_of_mem _ (List.mem_cons_self _ _)

/-- Witness for C10: a concrete new row starts pending, reviewing the sample
task with choice 1 writes the approved literal at position 9, and that choice
is one of the two options. -/
theorem client_status_c10_w :
    (engineerNewRow 1 "A" 1 "2024-01-01" "2024-01-02" "已理解" []).get? 9 =
      some (.s "待確認") ∧
    clientChoice 1 ∈ clientStatusOptions ∧
    (clientReviewRow sampleTask (clientChoice 1)).get? 9 =
      some (.s (clientChoice 1)) := by
  have h := client_status_c10 1 "A" 1 "2024-01-01" "2024-01-02" "已理解" []
    [sampleTask] (fun _ => 1)
  obtain ⟨t, ht, heq, hget, hmem⟩ :=
    h.2.2.2 (clientReviewRow sampleTask (clientChoice 1))
      (by simp [clientTaskReviewRows])
  exact ⟨h.1, h.2.2.1 1, by rw [heq]; exact hget⟩

/-- `fromisoformat` never succeeds on the empty string (a parsed string has
ten characters). -/
theorem parseISODate_ne_empty {e : String} {d : PDate} (h : parseISODate e = some d) :
    e ≠ "" := by
  intro he
  subst he
  have hnone : parseISODate "" = none := rfl
  rw [hnone] at h
  exact Option.noConfusion h

/-- Reduction of the overdue flag on a missing end date. -/
theorem overdueFlag_none (ds : String) (today : PDate) :
    overdueFlag none ds today = "" := rfl

/-- Reduction of the overdue flag on a present end date. -/
theorem overdueFlag_some (e ds : String) (today : PDate) :
    overdueFlag (some e) ds today =
      if e ≠ "" ∧ ds ≠ "已完成" then overdueInner e today else "" := rfl

/-- Reduction of the guarded body when the end date parses. -/
theorem overdueInner_parsed (e : String) (today : PDate) (d : PDate)
    (hp : parseISODate e = some d) :
    overdueInner e today = if PDate.ltb d today then OVERDUE_MARK else "" := by
  unfold overdueInner
  rw [hp]

/-- Reduction of the guarded body when the end date fails to parse. -/
theorem overdueInner_unparsed (e : String) (today : PDate)
    (hp : parseISODate e = none) :
    overdueInner e today = "" := by
  unfold overdueInner
  rw [hp]

/-- C7: the dashboard marks a task overdue exactly when its end date is
present and parses as a date, its `done_status` is not the completion marker
`已完成`, and the parsed date is strictly before today; a missing or
unparseable end date (the empty string included) silently yields the empty,
not-overdue flag instead of an error. -/
theorem overdue_c7 (end_date : Option String) (ds : String) (today : PDate) :
    overdueFlag end_date ds today = OVERDUE_MARK ↔
      ∃ e d, end_date = some e ∧ parseISODate e = some d ∧ ds ≠ "已完成" ∧
        PDate.ltb d today = true := by
  constructor
  · intro h
    cases end_date with
    | none =>
      rw [overdueFlag_none] at h
      exact absurd h (by decide)
    | some e =>
      rw [overdueFlag_some] at h
      by_cases hc : e ≠ "" ∧ ds ≠ "已完成"
      · rw [if_pos hc] at h
        cases hp : parseISODate e with
        | none =>
          rw [overdueInner_unparsed e today hp] at h
          exact absurd h (by decide)
        | some d =>
          rw [overdueInner_parsed e today d hp] at h
          cases hb : PDate.ltb d today with
          | true => exact ⟨e, d, rfl, hp, hc.2, hb⟩
          | false =>
            rw [hb, if_neg (by decide)] at h
            exact absurd h (by decide)
      · rw [if_neg hc] at h
        exact absurd h (by decide)
  · rintro ⟨e, d, rfl, hp, hds, hlt⟩
    rw [overdueFlag_some, if_pos ⟨parseISODate_ne_empty hp, hds⟩,
      overdueInner_parsed e today d hp, if_pos hlt]

/-- Witness for C7 at the spec's examples: end date "2020-01-01" with a
non-complete status is flagged on a later today, while an empty end date never
is. -/
theorem overdue_c7_w :
    overdueFlag (some "2020-01-01") "進行中" ⟨2024, 1, 1⟩ = OVERDUE_MARK ∧
    overdueFlag (some "") "進行中" ⟨2024, 1, 1⟩ ≠ OVERDUE_MARK := by
  constructor
  · exact (overdue_c7 (some "2020-01-01") "進行中" ⟨2024, 1, 1⟩).mpr
      ⟨"2020-01-01", ⟨2020, 1, 1⟩, rfl, by decide, by decide, by decide⟩
  · intro hcon
    obtain ⟨e, d, he, hp, -, -⟩ :=
      (overdue_c7 (some "") "進行中" ⟨2024, 1, 1⟩).mp hcon
    exact parseISODate_ne_empty hp (Option.some.inj he).symm

end PMSystem
